import Mathlib

/-!
Verification of the AcademiML result-synthesis engine: a shallow embedding of the repository's core (the Pearson correlation helper,
the feature-impact ranking, and the training-result synthesizer of
`simulateBackendTraining`) together with proofs of the specification's
testable properties.

Modelling conventions:
* JavaScript numbers are modelled by exact real arithmetic (`ℝ`); raw cell
  values parsed from CSV are rationals, strings or booleans.
* `Math.random()` is modelled by an ambient stream `rand : ℕ → ℝ` of draws,
  consumed left to right in exactly the order the source performs its calls;
  theorems that need it assume every draw lies in `[0, 1)`.
* `Math.round x` is `round x` (both round half toward `+∞`), and
  `parseFloat(x.toFixed(k))` is `round (x * 10^k) / 10^k` (exact decimal
  arithmetic; `toFixed` rounds ties away from zero toward `+∞` for the
  nonnegative values produced here).
* JavaScript `a / b || 0` (a `NaN` guard on `0/0`) coincides with Lean's
  `a / 0 = 0` convention, so plain division embeds it.
-/

noncomputable section

open scoped Classical

namespace AcademiML

/-! ## Raw cell values and datasets (`types.ts`, `parseCSV` output shape) -/

/-- A raw cell value of a dataset row: a number, a string or a boolean.
Numbers are rationals (every parsed JS double is rational). -/
inductive Value where
  | num (q : ℚ)
  | str (s : String)
  | bool (b : Bool)
deriving DecidableEq, Repr

/-- Declared column type, as inferred at parse time (`types.ts`). -/
inductive ColType where
  | number
  | boolean
  | string
  | unknown
deriving DecidableEq, Repr

/-- Column descriptor (`DatasetColumn` in `types.ts`). -/
structure DatasetColumn where
  name : String
  type : ColType
  missingCount : ℕ
  uniqueCount : ℕ

/-- A dataset: rows are records mapping column names to raw values
(`Dataset` in `types.ts`; by the data-model invariant every record's key set
matches the column names, so a row is modelled as a total lookup). -/
structure Dataset where
  name : String
  rows : List (String → Value)
  columns : List DatasetColumn
  totalRows : ℕ

/-! ## Pearson correlation (`calculateCorrelation` in `utils.ts`) -/

/-- The source operation `calculateCorrelation(x, y)`: the Pearson coefficient with the source's
two fallbacks (`n === 0` and a zero denominator both return `0`).
`sumXY` iterates the paired products; callers pass equal-length sequences. -/
def calculateCorrelation (x y : List ℝ) : ℝ :=
  if x.length = 0 then 0
  else
    let n : ℝ := x.length
    let sumX := x.sum
    let sumY := y.sum
    let sumXY := (List.zipWith (fun a b => a * b) x y).sum
    let sumX2 := (x.map fun v => v * v).sum
    let sumY2 := (y.map fun v => v * v).sum
    let numerator := n * sumXY - sumX * sumY
    let denominator := Real.sqrt ((n * sumX2 - sumX * sumX) * (n * sumY2 - sumY * sumY))
    if denominator = 0 then 0 else numerator / denominator

/-! ### Sum bridging lemmas (list sums as indexed `Finset.range` sums) -/

theorem map_sum_eq_range_sum (f : ℝ → ℝ) :
    ∀ l : List ℝ, (l.map f).sum = ∑ i in Finset.range l.length, f (l.getD i 0)
  | [] => by simp
  | a :: t => by
    rw [List.map_cons, List.sum_cons, List.length_cons, Finset.sum_range_succ']
    simp only [List.getD_cons_succ, List.getD_cons_zero]
    rw [map_sum_eq_range_sum f t]
    ring

theorem sum_eq_range_sum (l : List ℝ) :
    l.sum = ∑ i in Finset.range l.length, l.getD i 0 := by
  have h := map_sum_eq_range_sum (fun v => v) l
  simpa using h

theorem zipWith_mul_sum_eq_range_sum :
    ∀ x y : List ℝ, x.length = y.length →
      (List.zipWith (fun a b => a * b) x y).sum
        = ∑ i in Finset.range x.length, (x.getD i 0) * (y.getD i 0)
  | [], [], _ => by simp
  | [], _ :: _, h => by simp at h
  | _ :: _, [], h => by simp at h
  | a :: tx, b :: ty, h => by
    have ht : tx.length = ty.length := by simpa using h
    rw [List.zipWith_cons_cons, List.sum_cons, List.length_cons, Finset.sum_range_succ']
    simp only [List.getD_cons_succ, List.getD_cons_zero]
    rw [zipWith_mul_sum_eq_range_sum tx ty ht]
    ring

/-! ### Cauchy–Schwarz facts for the correlation -/

theorem variance_expr_nonneg (n : ℕ) (X : ℕ → ℝ) :
    0 ≤ (n : ℝ) * (∑ i in Finset.range n, X i * X i)
        - (∑ i in Finset.range n, X i) * (∑ i in Finset.range n, X i) := by
  have key := Finset.sum_mul_sq_le_sq_mul_sq (Finset.range n) X (fun _ => 1)
  simp only [mul_one, one_pow, Finset.sum_const, Finset.card_range, nsmul_eq_mul] at key
  have hx : ∀ i ∈ Finset.range n, X i ^ 2 = X i * X i := fun i _ => pow_two (X i)
  rw [Finset.sum_congr rfl hx] at key
  nlinarith [key]

theorem covariance_cauchy_schwarz (n : ℕ) (X Y : ℕ → ℝ) :
    ((n : ℝ) * (∑ i in Finset.range n, X i * Y i)
        - (∑ i in Finset.range n, X i) * (∑ i in Finset.range n, Y i)) ^ 2
      ≤ ((n : ℝ) * (∑ i in Finset.range n, X i * X i)
            - (∑ i in Finset.range n, X i) * (∑ i in Finset.range n, X i))
        * ((n : ℝ) * (∑ i in Finset.range n, Y i * Y i)
            - (∑ i in Finset.range n, Y i) * (∑ i in Finset.range n, Y i)) := by
  rcases Nat.eq_zero_or_pos n with hn | hn
  · subst hn; simp
  set Sx := ∑ i in Finset.range n, X i with hSx
  set Sy := ∑ i in Finset.range n, Y i with hSy
  set SXY := ∑ i in Finset.range n, X i * Y i with hSXY
  set SXX := ∑ i in Finset.range n, X i * X i with hSXX
  set SYY := ∑ i in Finset.range n, Y i * Y i with hSYY
  have key := Finset.sum_mul_sq_le_sq_mul_sq (Finset.range n)
    (fun i => (n : ℝ) * X i - Sx) (fun i => (n : ℝ) * Y i - Sy)
  have e1 : (∑ i in Finset.range n, ((n : ℝ) * X i - Sx) * ((n : ℝ) * Y i - Sy))
      = (n : ℝ) * ((n : ℝ) * SXY - Sx * Sy) := by
    have expand : ∀ i ∈ Finset.range n,
        ((n : ℝ) * X i - Sx) * ((n : ℝ) * Y i - Sy)
          = (n : ℝ) ^ 2 * (X i * Y i) - ((n : ℝ) * Sy) * X i
            - ((n : ℝ) * Sx) * Y i + Sx * Sy := fun i _ => by ring
    rw [Finset.sum_congr rfl expand]
    simp only [Finset.sum_add_distrib, Finset.sum_sub_distrib, ← Finset.mul_sum,
      Finset.sum_const, Finset.card_range, nsmul_eq_mul, ← hSx, ← hSy, ← hSXY]
    ring
  have e2 : (∑ i in Finset.range n, ((n : ℝ) * X i - Sx) ^ 2)
      = (n : ℝ) * ((n : ℝ) * SXX - Sx * Sx) := by
    have expand : ∀ i ∈ Finset.range n,
        ((n : ℝ) * X i - Sx) ^ 2
          = (n : ℝ) ^ 2 * (X i * X i) - (2 * (n : ℝ) * Sx) * X i + Sx * Sx :=
      fun i _ => by ring
    rw [Finset.sum_congr rfl expand]
    simp only [Finset.sum_add_distrib, Finset.sum_sub_distrib, ← Finset.mul_sum,
      Finset.sum_const, Finset.card_range, nsmul_eq_mul, ← hSx, ← hSXX]
    ring
  have e3 : (∑ i in Finset.range n, ((n : ℝ) * Y i - Sy) ^ 2)
      = (n : ℝ) * ((n : ℝ) * SYY - Sy * Sy) := by
    have expand : ∀ i ∈ Finset.range n,
        ((n : ℝ) * Y i - Sy) ^ 2
          = (n : ℝ) ^ 2 * (Y i * Y i) - (2 * (n : ℝ) * Sy) * Y i + Sy * Sy :=
      fun i _ => by ring
    rw [Finset.sum_congr rfl expand]
    simp only [Finset.sum_add_distrib, Finset.sum_sub_distrib, ← Finset.mul_sum,
      Finset.sum_const, Finset.card_range, nsmul_eq_mul, ← hSy, ← hSYY]
    ring
  rw [e1, e2, e3] at key
  have hnpos : (0 : ℝ) < (n : ℝ) := by exact_mod_cast hn
  have hn2 : (0 : ℝ) < (n : ℝ) ^ 2 := by positivity
  nlinarith [key, hn2]

theorem calculateCorrelation_eq_of_ne (x y : List ℝ) (h0 : x.length ≠ 0) :
    calculateCorrelation x y =
      if Real.sqrt (((x.length : ℝ) * (x.map fun v => v * v).sum - x.sum * x.sum)
          * ((x.length : ℝ) * (y.map fun v => v * v).sum - y.sum * y.sum)) = 0
      then 0
      else ((x.length : ℝ) * (List.zipWith (fun a b => a * b) x y).sum - x.sum * y.sum)
        / Real.sqrt (((x.length : ℝ) * (x.map fun v => v * v).sum - x.sum * x.sum)
            * ((x.length : ℝ) * (y.map fun v => v * v).sum - y.sum * y.sum)) := by
  simp only [calculateCorrelation, if_neg h0]

theorem varianceExpr_nonneg (x : List ℝ) :
    0 ≤ (x.length : ℝ) * (x.map fun v => v * v).sum - x.sum * x.sum := by
  have h := variance_expr_nonneg x.length (fun i => x.getD i 0)
  rwa [← map_sum_eq_range_sum (fun v => v * v) x, ← sum_eq_range_sum x] at h

theorem numerator_sq_le (x y : List ℝ) (h : x.length = y.length) :
    ((x.length : ℝ) * (List.zipWith (fun a b => a * b) x y).sum - x.sum * y.sum) ^ 2
      ≤ ((x.length : ℝ) * (x.map fun v => v * v).sum - x.sum * x.sum)
        * ((x.length : ℝ) * (y.map fun v => v * v).sum - y.sum * y.sum) := by
  have key := covariance_cauchy_schwarz x.length (fun i => x.getD i 0) (fun i => y.getD i 0)
  rwa [← zipWith_mul_sum_eq_range_sum x y h, ← sum_eq_range_sum x,
    ← map_sum_eq_range_sum (fun v => v * v) x, h, ← sum_eq_range_sum y,
    ← map_sum_eq_range_sum (fun v => v * v) y, ← h] at key

/-- C4: for equal-length numeric sequences, `calculateCorrelation` lies in
`[-1, 1]`; it is exactly `0` on empty sequences and whenever the variance
product under the square root (the denominator squared) vanishes. -/
theorem correlation_bounds_and_degenerate (x y : List ℝ) (h : x.length = y.length) :
    (-1 ≤ calculateCorrelation x y ∧ calculateCorrelation x y ≤ 1) ∧
    (x.length = 0 → calculateCorrelation x y = 0) ∧
    ((((x.length : ℝ) * (x.map fun v => v * v).sum - x.sum * x.sum)
        * ((x.length : ℝ) * (y.map fun v => v * v).sum - y.sum * y.sum)) = 0 →
      calculateCorrelation x y = 0) := by
  by_cases h0 : x.length = 0
  · simp [calculateCorrelation, h0]
  rw [calculateCorrelation_eq_of_ne x y h0]
  set A := (x.length : ℝ) * (x.map fun v => v * v).sum - x.sum * x.sum with hA
  set B := (x.length : ℝ) * (y.map fun v => v * v).sum - y.sum * y.sum with hB
  set num := (x.length : ℝ) * (List.zipWith (fun a b => a * b) x y).sum - x.sum * y.sum
    with hnum
  refine ⟨?_, fun hz => absurd hz h0, fun hz => by rw [hz, Real.sqrt_zero, if_pos rfl]⟩
  by_cases hd : Real.sqrt (A * B) = 0
  · rw [if_pos hd]; norm_num
  rw [if_neg hd]
  have hdpos : 0 < Real.sqrt (A * B) := (Real.sqrt_nonneg _).lt_of_ne (Ne.symm hd)
  have habs : |num| ≤ Real.sqrt (A * B) := by
    rw [← Real.sqrt_sq_eq_abs num]
    exact Real.sqrt_le_sqrt (numerator_sq_le x y h)
  have hq : |num / Real.sqrt (A * B)| ≤ 1 := by
    rw [abs_div, abs_of_pos hdpos, div_le_one hdpos]
    exact habs
  exact abs_le.mp hq

theorem zipWith_mul_self_eq_map (x : List ℝ) :
    List.zipWith (fun a b => a * b) x x = x.map fun v => v * v := by
  induction x with
  | nil => rfl
  | cons a t ih => simp [ih]

/-- C5: `calculateCorrelation x x = 1` for any sequence of nonzero variance
(the variance expression `n*Σx² − (Σx)²` being nonzero). -/
theorem self_correlation_eq_one (x : List ℝ)
    (hvar : (x.length : ℝ) * (x.map fun v => v * v).sum - x.sum * x.sum ≠ 0) :
    calculateCorrelation x x = 1 := by
  have h0 : x.length ≠ 0 := by
    intro h0
    rw [List.length_eq_zero] at h0
    subst h0
    simp at hvar
  rw [calculateCorrelation_eq_of_ne x x h0, zipWith_mul_self_eq_map x]
  set A := (x.length : ℝ) * (x.map fun v => v * v).sum - x.sum * x.sum with hA
  have hApos : 0 < A := lt_of_le_of_ne (varianceExpr_nonneg x) (Ne.symm hvar)
  rw [Real.sqrt_mul_self hApos.le, if_neg hvar]
  exact div_self hvar

/-- C4 witness: a concrete bounded correlation value. -/
theorem correlation_bounds_witness :
    -1 ≤ calculateCorrelation [1, 2] [2, 5] ∧ calculateCorrelation [1, 2] [2, 5] ≤ 1 :=
  (correlation_bounds_and_degenerate [1, 2] [2, 5] rfl).1

/-- C5 witness: the self-correlation of the concrete non-constant sequence
`[0, 1]` is `1`. -/
theorem self_correlation_witness : calculateCorrelation [0, 1] [0, 1] = 1 :=
  self_correlation_eq_one [0, 1] (by norm_num)

/-! ## Label encoding and feature impacts (`calculateFeatureImpacts`) -/

/-- JS `Set` insertion-order distinct values: `Array.from(new Set(raw))`. -/
def distinctValues (l : List Value) : List Value :=
  l.foldl (fun acc v => if v ∈ acc then acc else acc ++ [v]) []

/-- First-occurrence label encoding: `raw.map(v => uniqueVals.indexOf(v))`. -/
def labelEncode (l : List Value) : List ℝ :=
  l.map fun v => ((distinctValues l).indexOf v : ℝ)

/-- JS numeric coercion of the raw values on which the source's
arithmetic stays numeric: numbers pass through and booleans become 0/1.
A string value (for example the empty string, how the CSV parser stores
a missing cell) is `none`: a string operand switches the source's
`reduce((a, b) => a + b, 0)` accumulation to string concatenation, which
leaves the numeric fragment modelled here. -/
def jsToNum : Value → Option ℝ
  | .num q => some (q : ℝ)
  | .bool b => some (if b then 1 else 0)
  | .str _ => none

/-- Coerce a raw column used `as number[]`: `some` of the pointwise
coercion when every entry is a number or a boolean (there the source's
sums are genuinely numeric); `none` when some entry is a string, where
the source's concatenated-string sums are outside the numeric fragment
modelled here (the `none` branch is mapped to impact 0 below, the
NaN-guard's typical outcome; no theorem relies on the value computed on
that branch). -/
def jsNums : List Value → Option (List ℝ)
  | [] => some []
  | v :: t =>
    match jsToNum v, jsNums t with
    | some a, some r => some (a :: r)
    | _, _ => none

def targetRawOf (ds : Dataset) (targetCol : String) : List Value :=
  ds.rows.map fun r => r targetCol

/-- The check `typeof targetRaw.find(v => v !== null) === "string"` of the
source: rows are total
records, so the first raw value decides; an empty dataset yields
`undefined`, which is not a string. -/
def targetIsStringOf (ds : Dataset) (targetCol : String) : Bool :=
  match (targetRawOf ds targetCol).head? with
  | some (.str _) => true
  | _ => false

/-- The numeric target sequence: label-encoded when the first value is a
string, otherwise used as-is under JS numeric coercion. -/
def targetNumsOf (ds : Dataset) (targetCol : String) : Option (List ℝ) :=
  if targetIsStringOf ds targetCol then some (labelEncode (targetRawOf ds targetCol))
  else jsNums (targetRawOf ds targetCol)

def featureRawOf (ds : Dataset) (col : DatasetColumn) : List Value :=
  ds.rows.map fun r => r col.name

/-- A feature column's numeric sequence: label-encoded whenever the
declared column type is not `number`, otherwise used as-is. -/
def featureNumsOf (ds : Dataset) (col : DatasetColumn) : Option (List ℝ) :=
  if col.type ≠ ColType.number then some (labelEncode (featureRawOf ds col))
  else jsNums (featureRawOf ds col)

/-- One column's impact: the correlation of the encoded feature and target
sequences; a sequence outside the numeric fragment (`none`) is mapped to
impact 0, the typical outcome of the source's `isNaN` guard there. -/
def impactOf (ds : Dataset) (targetCol : String) (col : DatasetColumn) : ℝ :=
  match featureNumsOf ds col, targetNumsOf ds targetCol with
  | some a, some b => calculateCorrelation a b
  | _, _ => 0

/-- Entries `{name, impact}` returned by `calculateFeatureImpacts`. -/
structure FeatureImpact where
  name : String
  impact : ℝ

/-- The sort comparator `(a, b) => |b.impact| − |a.impact|`: `a` precedes
`b` when its absolute impact is at least as large. -/
def impactGe (a b : FeatureImpact) : Prop := |b.impact| ≤ |a.impact|

instance : DecidableRel impactGe := fun a b =>
  inferInstanceAs (Decidable (|b.impact| ≤ |a.impact|))

instance : IsTotal FeatureImpact impactGe :=
  ⟨fun a b => le_total (|b.impact|) (|a.impact|)⟩

instance : IsTrans FeatureImpact impactGe :=
  ⟨fun _ _ _ hab hbc => le_trans hbc hab⟩

/-- The unsorted impact list: one entry per column other than the target. -/
def impactsUnsorted (ds : Dataset) (targetCol : String) : List FeatureImpact :=
  (ds.columns.filter fun c => c.name != targetCol).map
    fun c => ⟨c.name, impactOf ds targetCol c⟩

/-- The source operation `calculateFeatureImpacts(dataset, targetCol)`:
empty for an empty
target-column name, otherwise all non-target columns sorted by descending
absolute impact (a stable sort models `Array.prototype.sort`). -/
def calculateFeatureImpacts (ds : Dataset) (targetCol : String) : List FeatureImpact :=
  if targetCol = "" then []
  else List.insertionSort impactGe (impactsUnsorted ds targetCol)

/-- C6: the ranked impact list is sorted by non-increasing absolute impact,
contains exactly one entry per non-target column, and is empty when the
target-column name is empty. -/
theorem rankFeatureImpacts_sorted (ds : Dataset) (t : String) :
    List.Sorted impactGe (calculateFeatureImpacts ds t) ∧
    (t ≠ "" → List.Perm ((calculateFeatureImpacts ds t).map FeatureImpact.name)
        ((ds.columns.filter fun c => c.name != t).map DatasetColumn.name)) ∧
    (t = "" → calculateFeatureImpacts ds t = []) := by
  unfold calculateFeatureImpacts
  by_cases ht : t = ""
  · simp [ht]
  · rw [if_neg ht]
    refine ⟨List.sorted_insertionSort impactGe _, fun _ => ?_, fun h => absurd h ht⟩
    have hperm := (List.perm_insertionSort impactGe (impactsUnsorted ds t)).map
      FeatureImpact.name
    refine hperm.trans ?_
    rw [impactsUnsorted, List.map_map]
    rfl

/-- A concrete empty dataset used by witnesses. -/
def emptyDataset : Dataset where
  name := "empty"
  rows := []
  columns := []
  totalRows := 0

/-- C6 witness: the empty-target clause of the ranking theorem at a
concrete dataset. -/
theorem rankFeatureImpacts_witness : calculateFeatureImpacts emptyDataset "" = [] :=
  (rankFeatureImpacts_sorted emptyDataset "").2.2 rfl

/-! ### C10: how target and feature sequences are encoded -/

def boolFeatureColumn : DatasetColumn :=
  { name := "f", type := ColType.number, missingCount := 0, uniqueCount := 2 }

/-- A dataset whose target column `t` holds booleans and whose single
feature `f` is numeric. -/
def boolTargetDataset : Dataset where
  name := "bool-target"
  rows := [fun c => if c = "f" then .num 0 else .bool true,
           fun c => if c = "f" then .num 1 else .bool false]
  columns := [boolFeatureColumn,
              { name := "t", type := ColType.boolean, missingCount := 0, uniqueCount := 2 }]
  totalRows := 2

/-- C10 amended, proved on the numeric fragment the embedding models
exactly: whenever the two encoded sequences exist (`some`; automatic for
every label-encoded column, and meaning no string values for an as-is
column, where the source's sums stay genuinely numeric), the impact
reported for a non-target column is their correlation, with the feature
label-encoded iff its declared type is not `number` and the target
label-encoded iff its first raw value is a string — boolean targets are
NOT label-encoded but coerced 0/1 as-is. -/
theorem labelEncoding_amended (ds : Dataset) (t : String) (ht : t ≠ "")
    (col : DatasetColumn) (hmem : col ∈ ds.columns) (hname : col.name ≠ t)
    (xs ys : List ℝ)
    (hx : (if col.type ≠ ColType.number
           then some (labelEncode (featureRawOf ds col))
           else jsNums (featureRawOf ds col)) = some xs)
    (hy : (if targetIsStringOf ds t
           then some (labelEncode (targetRawOf ds t))
           else jsNums (targetRawOf ds t)) = some ys) :
    (⟨col.name, calculateCorrelation xs ys⟩ : FeatureImpact)
      ∈ calculateFeatureImpacts ds t := by
  have hxF : featureNumsOf ds col = some xs := hx
  have hyT : targetNumsOf ds t = some ys := hy
  have himp : impactOf ds t col = calculateCorrelation xs ys := by
    unfold impactOf
    rw [hxF, hyT]
  have h1 : (⟨col.name, impactOf ds t col⟩ : FeatureImpact) ∈ impactsUnsorted ds t := by
    unfold impactsUnsorted
    exact List.mem_map_of_mem _ (List.mem_filter.mpr ⟨hmem, by simp [hname]⟩)
  rw [himp] at h1
  unfold calculateFeatureImpacts
  rw [if_neg ht]
  exact (List.perm_insertionSort impactGe (impactsUnsorted ds t)).mem_iff.mpr h1

/-- C10 amended-theorem witness at the concrete boolean-target dataset:
the numeric feature coerces as-is to `[0, 1]`, the boolean target to
`[1, 0]`, and their correlation is the reported impact. -/
theorem labelEncoding_amended_witness :
    (⟨"f", calculateCorrelation [0, 1] [1, 0]⟩ : FeatureImpact)
      ∈ calculateFeatureImpacts boolTargetDataset "t" :=
  labelEncoding_amended boolTargetDataset "t" (by decide) boolFeatureColumn
    (by simp [boolTargetDataset]) (by decide) [0, 1] [1, 0]
    (by rw [if_neg (by decide : ¬(boolFeatureColumn.type ≠ ColType.number))]
        simp [featureRawOf, boolTargetDataset, boolFeatureColumn, jsNums, jsToNum])
    (by rw [if_neg (by simp [targetIsStringOf, targetRawOf, boolTargetDataset])]
        simp [targetRawOf, boolTargetDataset, jsNums, jsToNum])

/-- C10 counterexample: with a boolean target the code does NOT label-encode
(first raw value is not a string): the produced impact is the correlation
against the 0/1-coerced booleans, here `-1`, whereas label-encoding the
target (as the claim prescribes for non-numeric targets) would give `1`. -/
theorem labelEncoding_counterexample :
    (calculateFeatureImpacts boolTargetDataset "t").map FeatureImpact.impact = [-1] ∧
    jsNums (featureRawOf boolTargetDataset boolFeatureColumn) = some [0, 1] ∧
    calculateCorrelation [0, 1] (labelEncode (targetRawOf boolTargetDataset "t")) = 1 ∧
    (-1 : ℝ) ≠ 1 := by
  have hfeat : jsNums (featureRawOf boolTargetDataset boolFeatureColumn) = some [0, 1] := by
    simp [featureRawOf, boolTargetDataset, boolFeatureColumn, jsNums, jsToNum]
  have htgt : targetRawOf boolTargetDataset "t" = [.bool true, .bool false] := by
    simp [targetRawOf, boolTargetDataset]
  have henc : labelEncode (targetRawOf boolTargetDataset "t") = [0, 1] := by
    rw [htgt]
    have e1 : (distinctValues [Value.bool true, Value.bool false]).indexOf
        (Value.bool true) = 0 := by decide
    have e2 : (distinctValues [Value.bool true, Value.bool false]).indexOf
        (Value.bool false) = 1 := by decide
    simp [labelEncode, e1, e2]
  have hcorr1 : calculateCorrelation [0, 1] [0, 1] = 1 := by
    rw [calculateCorrelation_eq_of_ne _ _ (by norm_num)]
    norm_num [Real.sqrt_one]
  have hcorrm1 : calculateCorrelation [0, 1] [1, 0] = -1 := by
    rw [calculateCorrelation_eq_of_ne _ _ (by norm_num)]
    norm_num [Real.sqrt_one]
  refine ⟨?_, hfeat, by rw [henc]; exact hcorr1, by norm_num⟩
  have htnums : targetNumsOf boolTargetDataset "t" = some [1, 0] := by
    rw [targetNumsOf]
    have : targetIsStringOf boolTargetDataset "t" = false := by
      simp [targetIsStringOf, htgt]
    rw [this]
    simp [htgt, jsNums, jsToNum]
  have himp : impactOf boolTargetDataset "t" boolFeatureColumn = -1 := by
    rw [impactOf]
    have hf : featureNumsOf boolTargetDataset boolFeatureColumn = some [0, 1] := by
      rw [featureNumsOf, if_neg (by decide : ¬(boolFeatureColumn.type ≠ ColType.number))]
      exact hfeat
    rw [hf, htnums]
    exact hcorrm1
  have hun : impactsUnsorted boolTargetDataset "t" =
      [⟨"f", impactOf boolTargetDataset "t" boolFeatureColumn⟩] := by
    simp [impactsUnsorted, boolTargetDataset, boolFeatureColumn]
  rw [calculateFeatureImpacts, if_neg (by decide), hun, himp]
  rfl

/-! ## Configuration objects (`types.ts`) -/

inductive ModelCategory where
  | ML
  | DL
  | NLP
deriving DecidableEq

structure TuningConfig where
  enabled : Bool
  method : String
  paramGrid : List (String × String)

structure CrossValidationConfig where
  enabled : Bool
  kFold : ℕ

structure ModelConfig where
  category : ModelCategory
  modelName : String
  targetColumn : String
  hyperparameters : List (String × String)
  tuning : TuningConfig
  crossValidation : CrossValidationConfig

structure TextProcessingConfig where
  removeStopwords : Bool
  lemmatization : Bool
  stemming : Bool
  vectorization : String

structure PreprocessingConfig where
  missingValueStrategy : String
  scaling : String
  encoding : String
  splitRatio : ℝ
  outlierRemoval : String
  dimensionalityReduction : String
  classBalancing : String
  featureEngineering : String
  textProcessing : TextProcessingConfig
  droppedColumns : List String

/-! ## Result bundle types (`types.ts`) -/

structure TrainingMetrics where
  accuracy : ℝ
  precision : ℝ
  «recall» : ℝ
  f1Score : ℝ
  auc : Option ℝ
  rmse : Option ℝ
  mae : Option ℝ

structure Point where
  x : ℝ
  y : ℝ
  label : Option String

structure EpochLog where
  epoch : ℕ
  loss : ℝ
  accuracy : ℝ
  val_loss : ℝ
  val_accuracy : ℝ

structure FeatureImportanceEntry where
  feature : String
  importance : ℝ

structure ShapEntry where
  feature : String
  value : ℝ

structure RadarMetric where
  metric : String
  value : ℝ
  fullMark : ℝ

structure WordCount where
  text : String
  value : ℤ

/-- The data interpolated into the narrative template string (the source
renders exactly these values into display text; formatting of the numbers
is presentation-only and not modelled). -/
structure ExplanationData where
  modelName : String
  accuracyPct : ℝ
  cvText : String
  tp : ℤ
  tn : ℤ
  topFeature : String
  secondFeature : String

structure TrainingResult where
  metrics : TrainingMetrics
  confusionMatrix : List (List ℤ)
  featureImportance : List FeatureImportanceEntry
  lossHistory : List EpochLog
  rocCurve : List Point
  precisionRecallCurve : List Point
  residuals : List Point
  learningCurve : List Point
  radarData : List RadarMetric
  layerActivations : List ℝ
  pcaComponents : List Point
  tsneComponents : List Point
  umapComponents : List Point
  shapValues : List ShapEntry
  limeValues : List ShapEntry
  wordCloud : List WordCount
  explanation : ExplanationData
  modelCategory : ModelCategory

/-! ## Rounding helpers (`parseFloat(x.toFixed(k))`, `Math.round`) -/

/-- The idiom `parseFloat(x.toFixed(4))` in exact arithmetic: round to 4 decimals
(ties toward `+∞`, as JS `toFixed` behaves on the nonnegative values
produced here, matching Mathlib's `round`). -/
def round4 (x : ℝ) : ℝ := ((round (x * 10000) : ℤ) : ℝ) / 10000

/-- The idiom `parseFloat(x.toFixed(2))`: round to 2 decimals. -/
def round2 (x : ℝ) : ℝ := ((round (x * 100) : ℤ) : ℝ) / 100

/-! ## The result synthesizer (`simulateBackendTraining` in `api.ts`)

`Math.random()` draws are the successive values `rand 0, rand 1, …` of an
ambient stream, numbered in exactly the order the source calls them:
draw 0 in `actualAccuracy`, draw 1 for `tp`, draw 2 for `fp`, draws 3-4 for
`rmse`/`mae` (regression path only), one draw per loss-history epoch, five
draws per projection point, one per SHAP then per LIME entry, three per
residual point, one per word-cloud word, and twenty for
`layerActivations`. -/

def classificationModels : List String :=
  ["Logistic Regression", "Random Forest", "XGBoost", "SVM", "Decision Tree",
   "Gradient Boosting", "AdaBoost", "K-Nearest Neighbors", "Naive Bayes",
   "CNN", "ANN", "RNN", "Simple Transformer",
   "TF-IDF Classifier", "DistilBERT", "BERT (Base)", "RoBERTa"]

def isClassificationOf (mc : ModelConfig) : Bool :=
  classificationModels.contains mc.modelName

/-- Base accuracy: 0.82, or 0.88 for Deep Learning, plus 0.05 when
hyperparameter tuning is enabled. -/
def baseAccuracyOf (mc : ModelConfig) : ℝ :=
  (if mc.category = ModelCategory.DL then 0.88 else 0.82)
    + (if mc.tuning.enabled then 0.05 else 0)

def realImpactsOf (ds : Dataset) (mc : ModelConfig) : List FeatureImpact :=
  calculateFeatureImpacts ds mc.targetColumn

/-- The source line `realImpacts.length > 0 ? Math.abs(realImpacts[0].impact) : 0.5`. -/
def maxCorrelationOf (ds : Dataset) (mc : ModelConfig) : ℝ :=
  match realImpactsOf ds mc with
  | [] => 0.5
  | f :: _ => |f.impact|

def accuracyModifierOf (ds : Dataset) (mc : ModelConfig) : ℝ :=
  (maxCorrelationOf ds mc - 0.5) * 0.2

/-- The clamp `Math.min(0.99, Math.max(0.6, base + modifier + Math.random()*0.05))`. -/
def actualAccuracyOf (ds : Dataset) (mc : ModelConfig) (rand : ℕ → ℝ) : ℝ :=
  min 0.99 (max 0.6 (baseAccuracyOf mc + accuracyModifierOf ds mc + rand 0 * 0.05))

def totalCorrectOf (ds : Dataset) (mc : ModelConfig) (rand : ℕ → ℝ) : ℤ :=
  round ((200 : ℝ) * actualAccuracyOf ds mc rand)

def totalWrongOf (ds : Dataset) (mc : ModelConfig) (rand : ℕ → ℝ) : ℤ :=
  200 - totalCorrectOf ds mc rand

def tpOf (ds : Dataset) (mc : ModelConfig) (rand : ℕ → ℝ) : ℤ :=
  round ((totalCorrectOf ds mc rand : ℝ) * (0.5 + rand 1 * 0.1))

def tnOf (ds : Dataset) (mc : ModelConfig) (rand : ℕ → ℝ) : ℤ :=
  totalCorrectOf ds mc rand - tpOf ds mc rand

def fpOf (ds : Dataset) (mc : ModelConfig) (rand : ℕ → ℝ) : ℤ :=
  round ((totalWrongOf ds mc rand : ℝ) * (0.4 + rand 2 * 0.2))

def fnOf (ds : Dataset) (mc : ModelConfig) (rand : ℕ → ℝ) : ℤ :=
  totalWrongOf ds mc rand - fpOf ds mc rand

/-- The source expression `tp / (tp + fp) || 0` (the division-by-zero convention coincides
with the `NaN → 0` guard). -/
def precisionRawOf (ds : Dataset) (mc : ModelConfig) (rand : ℕ → ℝ) : ℝ :=
  (tpOf ds mc rand : ℝ) / ((tpOf ds mc rand : ℝ) + (fpOf ds mc rand : ℝ))

def recallRawOf (ds : Dataset) (mc : ModelConfig) (rand : ℕ → ℝ) : ℝ :=
  (tpOf ds mc rand : ℝ) / ((tpOf ds mc rand : ℝ) + (fnOf ds mc rand : ℝ))

def f1RawOf (ds : Dataset) (mc : ModelConfig) (rand : ℕ → ℝ) : ℝ :=
  (2 * precisionRawOf ds mc rand * recallRawOf ds mc rand)
    / (precisionRawOf ds mc rand + recallRawOf ds mc rand)

def accuracyRawOf (ds : Dataset) (mc : ModelConfig) (rand : ℕ → ℝ) : ℝ :=
  ((tpOf ds mc rand : ℝ) + (tnOf ds mc rand : ℝ)) / 200

def metricsOf (ds : Dataset) (mc : ModelConfig) (rand : ℕ → ℝ) : TrainingMetrics :=
  { accuracy := round4 (accuracyRawOf ds mc rand)
    precision := round4 (precisionRawOf ds mc rand)
    «recall» := round4 (recallRawOf ds mc rand)
    f1Score := round4 (f1RawOf ds mc rand)
    auc := if isClassificationOf mc then some (round4 (accuracyRawOf ds mc rand + 0.02))
           else none
    rmse := if isClassificationOf mc then none else some (round2 (rand 3 * 1000))
    mae := if isClassificationOf mc then none else some (round2 (rand 4 * 800)) }

def steepnessOf (ds : Dataset) (mc : ModelConfig) (rand : ℕ → ℝ) : ℝ :=
  4 + (metricsOf ds mc rand).accuracy * 4

def rocCurveOf (ds : Dataset) (mc : ModelConfig) (rand : ℕ → ℝ) : List Point :=
  (List.range 21).map fun (i : ℕ) =>
    let x : ℝ := (i : ℝ) / 20
    { x := round2 x
      y := round2 (if x = 0 then 0 else min 1 (x ^ (1 / steepnessOf ds mc rand)))
      label := none }

def prCurveOf (ds : Dataset) (mc : ModelConfig) (rand : ℕ → ℝ) : List Point :=
  (List.range 21).map fun (i : ℕ) =>
    let x : ℝ := (i : ℝ) / 20
    { x := round2 x
      y := round2 (max 0 (1 - x ^ steepnessOf ds mc rand))
      label := none }

/-- The loss-history loop: `n` remaining epochs, `k` the next draw index,
`e` the epoch number, evolving `currLoss`/`currAcc` exactly as the source
(`currLoss = max(0.1, currLoss*0.9 + rand*0.02)`,
`currAcc = min(A + 0.02, currAcc + (A − currAcc)*0.2)` with
`A = metrics.accuracy`). -/
def lossHistoryGo (rand : ℕ → ℝ) (A : ℝ) :
    ℕ → ℕ → ℕ → ℝ → ℝ → List EpochLog
  | 0, _, _, _, _ => []
  | n + 1, k, e, currLoss, currAcc =>
    let L := max 0.1 (currLoss * 0.9 + rand k * 0.02)
    let Ac := min (A + 0.02) (currAcc + (A - currAcc) * 0.2)
    { epoch := e, loss := round4 L, accuracy := round4 Ac,
      val_loss := round4 (L + 0.05), val_accuracy := round4 (Ac - 0.03) }
      :: lossHistoryGo rand A n (k + 1) (e + 1) L Ac

def epochsOf (mc : ModelConfig) : ℕ :=
  if mc.category = ModelCategory.DL then 30 else 20

def lossBaseIdx (mc : ModelConfig) : ℕ := if isClassificationOf mc then 3 else 5

def lossHistoryOf (ds : Dataset) (mc : ModelConfig) (rand : ℕ → ℝ) : List EpochLog :=
  lossHistoryGo rand (metricsOf ds mc rand).accuracy (epochsOf mc) (lossBaseIdx mc) 1 0.7 0.5

/-- Box–Muller `randn_bm()`: consumes the next two accepted draws (the
source redraws any draw equal to 0, so the stream holds the accepted
values). -/
def randnBM (rand : ℕ → ℝ) (k : ℕ) : ℝ :=
  Real.sqrt (-2 * Real.log (rand k)) * Real.cos (2 * Real.pi * rand (k + 1))

def generateProjection (rand : ℕ → ℝ) (k0 : ℕ) (separation spread : ℝ) : List Point :=
  (List.range 150).map fun i =>
    let k := k0 + 5 * i
    if i < 75 then
      { x := randnBM rand k * spread - separation
        y := randnBM rand (k + 2) * spread + rand (k + 4) * 2
        label := some "Class 0" }
    else
      { x := randnBM rand k * spread + separation
        y := randnBM rand (k + 2) * spread - rand (k + 4) * 2
        label := some "Class 1" }

def projBaseIdx (mc : ModelConfig) : ℕ := lossBaseIdx mc + epochsOf mc

def pcaComponentsOf (ds : Dataset) (mc : ModelConfig) (rand : ℕ → ℝ) : List Point :=
  generateProjection rand (projBaseIdx mc) (2 * accuracyRawOf ds mc rand) 1.5

def tsneComponentsOf (ds : Dataset) (mc : ModelConfig) (rand : ℕ → ℝ) : List Point :=
  generateProjection rand (projBaseIdx mc + 750) (4 * accuracyRawOf ds mc rand) 0.8

def umapComponentsOf (ds : Dataset) (mc : ModelConfig) (rand : ℕ → ℝ) : List Point :=
  generateProjection rand (projBaseIdx mc + 1500) (5 * accuracyRawOf ds mc rand) 0.5

def topFeaturesOf (ds : Dataset) (mc : ModelConfig) : List FeatureImpact :=
  (realImpactsOf ds mc).take 8

def shapBaseIdx (mc : ModelConfig) : ℕ := projBaseIdx mc + 2250

def shapValuesOf (ds : Dataset) (mc : ModelConfig) (rand : ℕ → ℝ) : List ShapEntry :=
  (topFeaturesOf ds mc).mapIdx fun j item =>
    { feature := item.name, value := |item.impact| * (0.8 + rand (shapBaseIdx mc + j) * 0.2) }

def limeBaseIdx (ds : Dataset) (mc : ModelConfig) : ℕ :=
  shapBaseIdx mc + (topFeaturesOf ds mc).length

def limeValuesOf (ds : Dataset) (mc : ModelConfig) (rand : ℕ → ℝ) : List ShapEntry :=
  (topFeaturesOf ds mc).mapIdx fun j item =>
    { feature := item.name, value := item.impact * (0.5 + rand (limeBaseIdx ds mc + j) * 0.5) }

def residBaseIdx (ds : Dataset) (mc : ModelConfig) : ℕ :=
  limeBaseIdx ds mc + (topFeaturesOf ds mc).length

def residualsOf (ds : Dataset) (mc : ModelConfig) (rand : ℕ → ℝ) : List Point :=
  (List.range 50).map fun i =>
    { x := rand (residBaseIdx ds mc + 3 * i) * 100
      y := randnBM rand (residBaseIdx ds mc + 3 * i + 1) * 5
      label := none }

def learningCurveOf (ds : Dataset) (mc : ModelConfig) (rand : ℕ → ℝ) : List Point :=
  (List.range 10).map fun j =>
    let i : ℕ := 10 * (j + 1)
    { x := (i : ℝ)
      y := min (metricsOf ds mc rand).accuracy (0.5 + Real.log i * 0.1)
      label := none }

def radarDataOf (ds : Dataset) (mc : ModelConfig) (rand : ℕ → ℝ) : List RadarMetric :=
  [{ metric := "Accuracy", value := (metricsOf ds mc rand).accuracy, fullMark := 1 },
   { metric := "Precision", value := (metricsOf ds mc rand).precision, fullMark := 1 },
   { metric := "Recall", value := (metricsOf ds mc rand).«recall», fullMark := 1 },
   { metric := "F1 Score", value := (metricsOf ds mc rand).f1Score, fullMark := 1 },
   { metric := "AUC", value := (metricsOf ds mc rand).auc.getD 0, fullMark := 1 }]

def wordsList : List String :=
  ["dataset", "features", "model", "training", "accuracy", "loss", "python",
   "algorithm", "neural", "predict"]

def wordCloudBaseIdx (ds : Dataset) (mc : ModelConfig) : ℕ := residBaseIdx ds mc + 150

/-- One draw `Math.floor(Math.random()*80) + 20` per fixed vocabulary word. -/
def wordCloudOf (ds : Dataset) (mc : ModelConfig) (rand : ℕ → ℝ) : List WordCount :=
  wordsList.mapIdx fun j w =>
    { text := w, value := ⌊rand (wordCloudBaseIdx ds mc + j) * 80⌋ + 20 }

def layerBaseIdx (ds : Dataset) (mc : ModelConfig) : ℕ := wordCloudBaseIdx ds mc + 10

def layerActivationsOf (ds : Dataset) (mc : ModelConfig) (rand : ℕ → ℝ) : List ℝ :=
  (List.range 20).map fun j => rand (layerBaseIdx ds mc + j)

def cvTextOf (mc : ModelConfig) : String :=
  if mc.crossValidation.enabled then
    "Validated using " ++ toString mc.crossValidation.kFold ++ "-Fold Cross-Validation"
  else "Validated using standard Train-Test split"

def topFeatNameOf (ds : Dataset) (mc : ModelConfig) (rand : ℕ → ℝ) : String :=
  match shapValuesOf ds mc rand with
  | [] => "Feature X"
  | s :: _ => s.feature

def secondFeatNameOf (ds : Dataset) (mc : ModelConfig) (rand : ℕ → ℝ) : String :=
  match shapValuesOf ds mc rand with
  | _ :: s :: _ => s.feature
  | _ => "Feature Y"

def explanationOf (ds : Dataset) (mc : ModelConfig) (rand : ℕ → ℝ) : ExplanationData :=
  { modelName := mc.modelName
    accuracyPct := (metricsOf ds mc rand).accuracy * 100
    cvText := cvTextOf mc
    tp := tpOf ds mc rand
    tn := tnOf ds mc rand
    topFeature := topFeatNameOf ds mc rand
    secondFeature := secondFeatNameOf ds mc rand }

def featureImportanceOf (ds : Dataset) (mc : ModelConfig) (rand : ℕ → ℝ) :
    List FeatureImportanceEntry :=
  (shapValuesOf ds mc rand).map fun s => { feature := s.feature, importance := |s.value| }

/-- The source operation `simulateBackendTraining(dataset, modelConfig,
preprocessing)`: the full
result bundle (the artificial 2-second latency is timing-only and not
modelled; the preprocessing configuration is received but never read, as in
the source). -/
def simulateBackendTraining (ds : Dataset) (mc : ModelConfig)
    (pp : PreprocessingConfig) (rand : ℕ → ℝ) : TrainingResult :=
  { metrics := metricsOf ds mc rand
    confusionMatrix := [[tpOf ds mc rand, fpOf ds mc rand],
                        [fnOf ds mc rand, tnOf ds mc rand]]
    featureImportance := featureImportanceOf ds mc rand
    lossHistory := lossHistoryOf ds mc rand
    rocCurve := rocCurveOf ds mc rand
    precisionRecallCurve := prCurveOf ds mc rand
    residuals := residualsOf ds mc rand
    learningCurve := learningCurveOf ds mc rand
    radarData := radarDataOf ds mc rand
    layerActivations := layerActivationsOf ds mc rand
    pcaComponents := pcaComponentsOf ds mc rand
    tsneComponents := tsneComponentsOf ds mc rand
    umapComponents := umapComponentsOf ds mc rand
    shapValues := shapValuesOf ds mc rand
    limeValues := limeValuesOf ds mc rand
    wordCloud := wordCloudOf ds mc rand
    explanation := explanationOf ds mc rand
    modelCategory := mc.category }

/-! ## Rounding and confusion-matrix invariants -/

theorem le_round_of_le (x : ℝ) (m : ℤ) (h : (m : ℝ) ≤ x + 1 / 2) : m ≤ round x := by
  rw [round_eq]
  exact Int.le_floor.mpr h

theorem round_le_of_lt (x : ℝ) (m : ℤ) (h : x + 1 / 2 < (m : ℝ) + 1) : round x ≤ m := by
  rw [round_eq]
  have hlt : ⌊x + 1 / 2⌋ < m + 1 := Int.floor_lt.mpr (by push_cast; linarith)
  omega

theorem round4_eq_self_of_int (x : ℝ) (m : ℤ) (h : x * 10000 = (m : ℝ)) :
    round4 x = x := by
  unfold round4
  rw [h, round_intCast]
  have hx : x = (m : ℝ) / 10000 := by field_simp at h ⊢; linarith
  rw [hx]

theorem round4_add_int_div (x : ℝ) (m : ℤ) :
    round4 (x + (m : ℝ) / 10000) = round4 x + (m : ℝ) / 10000 := by
  unfold round4
  have hmul : (x + (m : ℝ) / 10000) * 10000 = x * 10000 + (m : ℝ) := by ring
  rw [hmul, round_add_int]
  push_cast
  ring

section ConfusionMatrix

variable (ds : Dataset) (mc : ModelConfig) (rand : ℕ → ℝ)

theorem actualAccuracy_bounds :
    0.6 ≤ actualAccuracyOf ds mc rand ∧ actualAccuracyOf ds mc rand ≤ 0.99 := by
  unfold actualAccuracyOf
  exact ⟨le_min (by norm_num) (le_max_left _ _), min_le_left _ _⟩

theorem totalCorrect_bounds :
    120 ≤ totalCorrectOf ds mc rand ∧ totalCorrectOf ds mc rand ≤ 198 := by
  obtain ⟨ha, hb⟩ := actualAccuracy_bounds ds mc rand
  unfold totalCorrectOf
  constructor
  · exact le_round_of_le _ _ (by push_cast; linarith)
  · exact round_le_of_lt _ _ (by push_cast; linarith)

theorem totalWrong_bounds :
    2 ≤ totalWrongOf ds mc rand ∧ totalWrongOf ds mc rand ≤ 80 := by
  obtain ⟨h1, h2⟩ := totalCorrect_bounds ds mc rand
  unfold totalWrongOf
  omega

theorem tp_bounds (h1 : 0 ≤ rand 1) (h2 : rand 1 < 1) :
    0 ≤ tpOf ds mc rand ∧ tpOf ds mc rand ≤ totalCorrectOf ds mc rand := by
  obtain ⟨hc1, hc2⟩ := totalCorrect_bounds ds mc rand
  have hc1R : (120 : ℝ) ≤ (totalCorrectOf ds mc rand : ℝ) := by exact_mod_cast hc1
  unfold tpOf
  constructor
  · exact le_round_of_le _ _ (by push_cast; nlinarith)
  · exact round_le_of_lt _ _ (by push_cast; nlinarith)

theorem fp_bounds (h1 : 0 ≤ rand 2) (h2 : rand 2 < 1) :
    0 ≤ fpOf ds mc rand ∧ fpOf ds mc rand ≤ totalWrongOf ds mc rand := by
  obtain ⟨hw1, hw2⟩ := totalWrong_bounds ds mc rand
  have hw1R : (2 : ℝ) ≤ (totalWrongOf ds mc rand : ℝ) := by exact_mod_cast hw1
  unfold fpOf
  constructor
  · exact le_round_of_le _ _ (by push_cast; nlinarith)
  · exact round_le_of_lt _ _ (by push_cast; nlinarith)

theorem accuracyRaw_eq :
    accuracyRawOf ds mc rand = (totalCorrectOf ds mc rand : ℝ) / 200 := by
  unfold accuracyRawOf tnOf
  push_cast
  ring

theorem metrics_accuracy_eq :
    (metricsOf ds mc rand).accuracy = (totalCorrectOf ds mc rand : ℝ) / 200 := by
  show round4 (accuracyRawOf ds mc rand) = _
  rw [accuracyRaw_eq]
  exact round4_eq_self_of_int _ (totalCorrectOf ds mc rand * 50) (by push_cast; ring)

theorem metrics_accuracy_bounds :
    0.6 ≤ (metricsOf ds mc rand).accuracy ∧ (metricsOf ds mc rand).accuracy ≤ 0.99 := by
  rw [metrics_accuracy_eq]
  obtain ⟨h1, h2⟩ := totalCorrect_bounds ds mc rand
  have h1R : (120 : ℝ) ≤ (totalCorrectOf ds mc rand : ℝ) := by exact_mod_cast h1
  have h2R : (totalCorrectOf ds mc rand : ℝ) ≤ 198 := by exact_mod_cast h2
  constructor <;> [linarith; linarith]

end ConfusionMatrix

/-- C2: for every run whose draws lie in `[0, 1)`, the four
confusion-matrix entries are non-negative and sum exactly to 200. -/
theorem confusion_matrix_conservation (ds : Dataset) (mc : ModelConfig)
    (pp : PreprocessingConfig) (rand : ℕ → ℝ) (h : ∀ i, 0 ≤ rand i ∧ rand i < 1) :
    (((simulateBackendTraining ds mc pp rand).confusionMatrix.map List.sum).sum = 200) ∧
    (∀ row ∈ (simulateBackendTraining ds mc pp rand).confusionMatrix,
      ∀ e ∈ row, 0 ≤ e) := by
  obtain ⟨htp0, htpc⟩ := tp_bounds ds mc rand (h 1).1 (h 1).2
  obtain ⟨hfp0, hfpw⟩ := fp_bounds ds mc rand (h 2).1 (h 2).2
  constructor
  · show ([[tpOf ds mc rand, fpOf ds mc rand],
      [fnOf ds mc rand, tnOf ds mc rand]].map List.sum).sum = 200
    simp only [List.map_cons, List.map_nil, List.sum_cons, List.sum_nil]
    unfold fnOf tnOf totalWrongOf
    ring
  · intro row hrow e he
    have hrowL : row ∈ [[tpOf ds mc rand, fpOf ds mc rand],
        [fnOf ds mc rand, tnOf ds mc rand]] := hrow
    have hrow2 : row = [tpOf ds mc rand, fpOf ds mc rand]
        ∨ row = [fnOf ds mc rand, tnOf ds mc rand] := by
      simpa using hrowL
    have htn : 0 ≤ tnOf ds mc rand := by unfold tnOf; omega
    have hfn : 0 ≤ fnOf ds mc rand := by unfold fnOf; omega
    rcases hrow2 with rfl | rfl
    · have he2 : e = tpOf ds mc rand ∨ e = fpOf ds mc rand := by simpa using he
      rcases he2 with rfl | rfl <;> assumption
    · have he2 : e = fnOf ds mc rand ∨ e = tnOf ds mc rand := by simpa using he
      rcases he2 with rfl | rfl <;> assumption

/-- A concrete ML model configuration with an empty target column, used by
witnesses. -/
def mlConfig : ModelConfig :=
  { category := ModelCategory.ML, modelName := "Logistic Regression",
    targetColumn := "", hyperparameters := [],
    tuning := { enabled := false, method := "grid", paramGrid := [] },
    crossValidation := { enabled := false, kFold := 5 } }

/-- A concrete regression-style configuration (model name outside the
classification list). -/
def regConfig : ModelConfig :=
  { category := ModelCategory.ML, modelName := "Linear Regression",
    targetColumn := "", hyperparameters := [],
    tuning := { enabled := false, method := "grid", paramGrid := [] },
    crossValidation := { enabled := false, kFold := 5 } }

/-- A concrete preprocessing configuration (never read by the core). -/
def defaultPrep : PreprocessingConfig :=
  { missingValueStrategy := "mean", scaling := "none", encoding := "label",
    splitRatio := 0.8, outlierRemoval := "none",
    dimensionalityReduction := "none", classBalancing := "none",
    featureEngineering := "none",
    textProcessing := { removeStopwords := false, lemmatization := false,
                        stemming := false, vectorization := "tfidf" },
    droppedColumns := [] }

/-- The all-zero draw stream (every draw at the low end of `[0, 1)`). -/
def zeroRand : ℕ → ℝ := fun _ => 0

/-- C2 witness: a concrete run with in-range draws. -/
theorem confusion_matrix_conservation_witness :
    (((simulateBackendTraining emptyDataset mlConfig defaultPrep
        zeroRand).confusionMatrix.map List.sum).sum = 200) ∧
    (∀ row ∈ (simulateBackendTraining emptyDataset mlConfig defaultPrep
        zeroRand).confusionMatrix, ∀ e ∈ row, 0 ≤ e) :=
  confusion_matrix_conservation emptyDataset mlConfig defaultPrep zeroRand
    (fun _ => by norm_num [zeroRand])

/-- C3: the reported `metrics.accuracy` equals the recomputation
`round(200 × clampedTarget) / 200` and always lies in `[0.60, 0.99]`,
regardless of the dataset, configuration and draws. -/
theorem accuracy_clamp (ds : Dataset) (mc : ModelConfig) (pp : PreprocessingConfig)
    (rand : ℕ → ℝ) :
    (0.6 ≤ (simulateBackendTraining ds mc pp rand).metrics.accuracy ∧
      (simulateBackendTraining ds mc pp rand).metrics.accuracy ≤ 0.99) ∧
    (simulateBackendTraining ds mc pp rand).metrics.accuracy
      = ((round ((200 : ℝ) * actualAccuracyOf ds mc rand) : ℤ) : ℝ) / 200 :=
  ⟨metrics_accuracy_bounds ds mc rand, metrics_accuracy_eq ds mc rand⟩

/-- C1: every reported metric equals the value recomputed from the
confusion matrix `[[TP, FP], [FN, TN]]` (with the `0` fallbacks on zero
denominators), rounded to 4 decimal places. -/
theorem metric_consistency (ds : Dataset) (mc : ModelConfig) (pp : PreprocessingConfig)
    (rand : ℕ → ℝ) (tp fp fn tn : ℤ)
    (hmat : (simulateBackendTraining ds mc pp rand).confusionMatrix
      = [[tp, fp], [fn, tn]]) :
    (simulateBackendTraining ds mc pp rand).metrics.precision
      = round4 (if tp + fp = 0 then 0 else (tp : ℝ) / ((tp : ℝ) + (fp : ℝ))) ∧
    (simulateBackendTraining ds mc pp rand).metrics.«recall»
      = round4 (if tp + fn = 0 then 0 else (tp : ℝ) / ((tp : ℝ) + (fn : ℝ))) ∧
    (simulateBackendTraining ds mc pp rand).metrics.f1Score
      = round4 ((fun p r => if p + r = 0 then 0 else 2 * p * r / (p + r))
          (if tp + fp = 0 then (0 : ℝ) else (tp : ℝ) / ((tp : ℝ) + (fp : ℝ)))
          (if tp + fn = 0 then (0 : ℝ) else (tp : ℝ) / ((tp : ℝ) + (fn : ℝ)))) ∧
    (simulateBackendTraining ds mc pp rand).metrics.accuracy
      = round4 (((tp : ℝ) + (tn : ℝ)) / 200) := by
  have hmatL : ([[tpOf ds mc rand, fpOf ds mc rand],
      [fnOf ds mc rand, tnOf ds mc rand]] : List (List ℤ)) = [[tp, fp], [fn, tn]] := hmat
  obtain ⟨⟨h1, h2⟩, h3, h4⟩ : (tpOf ds mc rand = tp ∧ fpOf ds mc rand = fp)
      ∧ fnOf ds mc rand = fn ∧ tnOf ds mc rand = tn := by
    simpa using hmatL
  subst h1 h2 h3 h4
  have hdiv : ∀ a b : ℤ,
      (if a + b = 0 then (0 : ℝ) else (a : ℝ) / ((a : ℝ) + (b : ℝ)))
        = (a : ℝ) / ((a : ℝ) + (b : ℝ)) := by
    intro a b
    by_cases hz : a + b = 0
    · have hzR : (a : ℝ) + (b : ℝ) = 0 := by exact_mod_cast hz
      rw [if_pos hz, hzR, div_zero]
    · rw [if_neg hz]
  refine ⟨?_, ?_, ?_, rfl⟩
  · show round4 (precisionRawOf ds mc rand) = _
    rw [hdiv]
    rfl
  · show round4 (recallRawOf ds mc rand) = _
    rw [hdiv]
    rfl
  · show round4 (f1RawOf ds mc rand) = _
    rw [hdiv, hdiv]
    show _ = round4 (if precisionRawOf ds mc rand + recallRawOf ds mc rand = 0 then 0
      else 2 * precisionRawOf ds mc rand * recallRawOf ds mc rand
        / (precisionRawOf ds mc rand + recallRawOf ds mc rand))
    by_cases hz : precisionRawOf ds mc rand + recallRawOf ds mc rand = 0
    · rw [if_pos hz]
      unfold f1RawOf
      rw [hz, div_zero]
    · rw [if_neg hz]
      rfl

/-- C1 witness: the consistency equations at a concrete run. -/
theorem metric_consistency_witness :
    (simulateBackendTraining emptyDataset mlConfig defaultPrep zeroRand).metrics.precision
      = round4 (if tpOf emptyDataset mlConfig zeroRand + fpOf emptyDataset mlConfig zeroRand = 0
          then 0
          else (tpOf emptyDataset mlConfig zeroRand : ℝ)
            / ((tpOf emptyDataset mlConfig zeroRand : ℝ)
              + (fpOf emptyDataset mlConfig zeroRand : ℝ))) ∧
    (simulateBackendTraining emptyDataset mlConfig defaultPrep zeroRand).metrics.«recall»
      = round4 (if tpOf emptyDataset mlConfig zeroRand + fnOf emptyDataset mlConfig zeroRand = 0
          then 0
          else (tpOf emptyDataset mlConfig zeroRand : ℝ)
            / ((tpOf emptyDataset mlConfig zeroRand : ℝ)
              + (fnOf emptyDataset mlConfig zeroRand : ℝ))) ∧
    (simulateBackendTraining emptyDataset mlConfig defaultPrep zeroRand).metrics.f1Score
      = round4 ((fun p r => if p + r = 0 then 0 else 2 * p * r / (p + r))
          (if tpOf emptyDataset mlConfig zeroRand + fpOf emptyDataset mlConfig zeroRand = 0
           then (0 : ℝ)
           else (tpOf emptyDataset mlConfig zeroRand : ℝ)
             / ((tpOf emptyDataset mlConfig zeroRand : ℝ)
               + (fpOf emptyDataset mlConfig zeroRand : ℝ)))
          (if tpOf emptyDataset mlConfig zeroRand + fnOf emptyDataset mlConfig zeroRand = 0
           then (0 : ℝ)
           else (tpOf emptyDataset mlConfig zeroRand : ℝ)
             / ((tpOf emptyDataset mlConfig zeroRand : ℝ)
               + (fnOf emptyDataset mlConfig zeroRand : ℝ)))) ∧
    (simulateBackendTraining emptyDataset mlConfig defaultPrep zeroRand).metrics.accuracy
      = round4 (((tpOf emptyDataset mlConfig zeroRand : ℝ)
          + (tnOf emptyDataset mlConfig zeroRand : ℝ)) / 200) :=
  metric_consistency emptyDataset mlConfig defaultPrep zeroRand _ _ _ _ rfl

/-! ## Loss-history recurrence (C7) -/

theorem lossHistoryGo_succ (rand : ℕ → ℝ) (A : ℝ) (n k e : ℕ) (L Ac : ℝ) :
    lossHistoryGo rand A (n + 1) k e L Ac
      = { epoch := e, loss := round4 (max 0.1 (L * 0.9 + rand k * 0.02)),
          accuracy := round4 (min (A + 0.02) (Ac + (A - Ac) * 0.2)),
          val_loss := round4 (max 0.1 (L * 0.9 + rand k * 0.02) + 0.05),
          val_accuracy := round4 (min (A + 0.02) (Ac + (A - Ac) * 0.2) - 0.03) }
        :: lossHistoryGo rand A n (k + 1) (e + 1) (max 0.1 (L * 0.9 + rand k * 0.02))
            (min (A + 0.02) (Ac + (A - Ac) * 0.2)) := rfl

theorem round4_sub_003 (x : ℝ) : round4 (x - 0.03) = round4 x - 0.03 := by
  have h := round4_add_int_div x (-300)
  have e1 : x + ((-300 : ℤ) : ℝ) / 10000 = x - 0.03 := by push_cast; ring
  have e2 : round4 x + ((-300 : ℤ) : ℝ) / 10000 = round4 x - 0.03 := by push_cast; ring
  rw [e1, e2] at h
  exact h

theorem round4_add_005 (x : ℝ) : round4 (x + 0.05) = round4 x + 0.05 := by
  have h := round4_add_int_div x 500
  have e1 : x + ((500 : ℤ) : ℝ) / 10000 = x + 0.05 := by push_cast; ring
  have e2 : round4 x + ((500 : ℤ) : ℝ) / 10000 = round4 x + 0.05 := by push_cast; ring
  rw [e1, e2] at h
  exact h

/-- The loop invariant of the loss-history simulation: starting at or below
`A + 0.02`, the cap never binds and the unrounded training accuracy follows
the closed form `A − (A − Ac₀)·0.8^(j+1)`, while the stored validation
series is the training series offset by `+0.05` / `−0.03` exactly. -/
theorem lossHistoryGo_get (rand : ℕ → ℝ) (A : ℝ) :
    ∀ (n j k e : ℕ) (L Ac : ℝ), j < n → Ac ≤ A + 0.02 →
      ∃ ent : EpochLog, (lossHistoryGo rand A n k e L Ac).get? j = some ent ∧
        ent.accuracy = round4 (A - (A - Ac) * 0.8 ^ (j + 1)) ∧
        ent.val_accuracy = ent.accuracy - 0.03 ∧
        ent.val_loss = ent.loss + 0.05 ∧
        ent.epoch = e + j
  | 0, j, _, _, _, _, hj, _ => absurd hj (Nat.not_lt_zero j)
  | n + 1, 0, k, e, L, Ac, _, hAc => by
    rw [lossHistoryGo_succ]
    have hmin : min (A + 0.02) (Ac + (A - Ac) * 0.2) = Ac + (A - Ac) * 0.2 :=
      min_eq_right (by linarith)
    refine ⟨_, List.get?_cons_zero, ?_, ?_, ?_, by show e = e + 0; omega⟩
    · show round4 (min (A + 0.02) (Ac + (A - Ac) * 0.2)) = _
      rw [hmin]
      exact congrArg round4 (by ring)
    · show round4 (min (A + 0.02) (Ac + (A - Ac) * 0.2) - 0.03)
        = round4 (min (A + 0.02) (Ac + (A - Ac) * 0.2)) - 0.03
      exact round4_sub_003 _
    · show round4 (max 0.1 (L * 0.9 + rand k * 0.02) + 0.05)
        = round4 (max 0.1 (L * 0.9 + rand k * 0.02)) + 0.05
      exact round4_add_005 _
  | n + 1, j + 1, k, e, L, Ac, hj, hAc => by
    rw [lossHistoryGo_succ]
    have hmin : min (A + 0.02) (Ac + (A - Ac) * 0.2) = Ac + (A - Ac) * 0.2 :=
      min_eq_right (by linarith)
    obtain ⟨ent, hget, h1, h2, h3, h4⟩ := lossHistoryGo_get rand A n j (k + 1) (e + 1)
      (max 0.1 (L * 0.9 + rand k * 0.02)) (min (A + 0.02) (Ac + (A - Ac) * 0.2))
      (by omega) (min_le_left _ _)
    refine ⟨ent, by rw [List.get?_cons_succ]; exact hget, ?_, h2, h3, by omega⟩
    rw [h1, hmin]
    exact congrArg round4 (by ring)

/-- C7 amended: each stored epoch entry follows the recurrence
`acc += (metrics.accuracy − acc) × 0.2` capped at `metrics.accuracy + 0.02`
(the cap never binds because accuracy ≥ 0.6 > the 0.5 start), so the
training accuracy has closed form `A − (A − 0.5)·0.8^epoch` and
exponentially approaches `A = metrics.accuracy`; the stored validation
series is exactly `val_loss = loss + 0.05`, `val_accuracy = acc − 0.03`. -/
theorem loss_history_recurrence (ds : Dataset) (mc : ModelConfig)
    (pp : PreprocessingConfig) (rand : ℕ → ℝ) (j : ℕ) (hj : j < epochsOf mc) :
    ∃ ent : EpochLog,
      (simulateBackendTraining ds mc pp rand).lossHistory.get? j = some ent ∧
      ent.accuracy = round4 ((simulateBackendTraining ds mc pp rand).metrics.accuracy
        - ((simulateBackendTraining ds mc pp rand).metrics.accuracy - 0.5)
          * 0.8 ^ (j + 1)) ∧
      ent.val_accuracy = ent.accuracy - 0.03 ∧
      ent.val_loss = ent.loss + 0.05 ∧
      ent.epoch = j + 1 := by
  have hA := (metrics_accuracy_bounds ds mc rand).1
  obtain ⟨ent, hget, h1, h2, h3, h4⟩ := lossHistoryGo_get rand
    ((metricsOf ds mc rand).accuracy) (epochsOf mc) j (lossBaseIdx mc) 1 0.7 0.5
    hj (by linarith)
  exact ⟨ent, hget, h1, h2, h3, by omega⟩

/-- C7 amended-theorem witness: the first epoch of a concrete run. -/
theorem loss_history_recurrence_witness :
    ∃ ent : EpochLog,
      (simulateBackendTraining emptyDataset mlConfig defaultPrep
        zeroRand).lossHistory.get? 0 = some ent ∧
      ent.accuracy = round4 ((simulateBackendTraining emptyDataset mlConfig defaultPrep
        zeroRand).metrics.accuracy
        - ((simulateBackendTraining emptyDataset mlConfig defaultPrep
            zeroRand).metrics.accuracy - 0.5) * 0.8 ^ (0 + 1)) ∧
      ent.val_accuracy = ent.accuracy - 0.03 ∧
      ent.val_loss = ent.loss + 0.05 ∧
      ent.epoch = 0 + 1 :=
  loss_history_recurrence emptyDataset mlConfig defaultPrep zeroRand 0 (by decide)

/-! ## Empty-target fallbacks (C9) and concrete-run evaluation helpers -/

theorem realImpacts_empty_target (ds : Dataset) (mc : ModelConfig)
    (h : mc.targetColumn = "") : realImpactsOf ds mc = [] := by
  unfold realImpactsOf calculateFeatureImpacts
  rw [h, if_pos rfl]

theorem maxCorrelation_empty_target (ds : Dataset) (mc : ModelConfig)
    (h : mc.targetColumn = "") : maxCorrelationOf ds mc = 0.5 := by
  unfold maxCorrelationOf
  rw [realImpacts_empty_target ds mc h]

theorem accuracyModifier_empty_target (ds : Dataset) (mc : ModelConfig)
    (h : mc.targetColumn = "") : accuracyModifierOf ds mc = 0 := by
  unfold accuracyModifierOf
  rw [maxCorrelation_empty_target ds mc h]
  ring

theorem lossHistoryGo_length (rand : ℕ → ℝ) (A : ℝ) :
    ∀ (n k e : ℕ) (L Ac : ℝ), (lossHistoryGo rand A n k e L Ac).length = n
  | 0, _, _, _, _ => rfl
  | n + 1, k, e, L, Ac => by
    rw [lossHistoryGo_succ, List.length_cons, lossHistoryGo_length rand A n]

/-- C9: with an empty target column the ranked impacts are empty, the
correlation neutral-falls back to 0.5 (modifier 0), and synthesis still
returns a complete, well-formed bundle whose SHAP/LIME arrays are empty and
whose series all have their full lengths. -/
theorem empty_target_column (ds : Dataset) (mc : ModelConfig)
    (pp : PreprocessingConfig) (rand : ℕ → ℝ) (h : mc.targetColumn = "") :
    calculateFeatureImpacts ds mc.targetColumn = [] ∧
    maxCorrelationOf ds mc = 0.5 ∧
    accuracyModifierOf ds mc = 0 ∧
    (simulateBackendTraining ds mc pp rand).shapValues = [] ∧
    (simulateBackendTraining ds mc pp rand).limeValues = [] ∧
    (simulateBackendTraining ds mc pp rand).featureImportance = [] ∧
    (simulateBackendTraining ds mc pp rand).rocCurve.length = 21 ∧
    (simulateBackendTraining ds mc pp rand).precisionRecallCurve.length = 21 ∧
    (simulateBackendTraining ds mc pp rand).lossHistory.length = epochsOf mc ∧
    (simulateBackendTraining ds mc pp rand).pcaComponents.length = 150 ∧
    (simulateBackendTraining ds mc pp rand).tsneComponents.length = 150 ∧
    (simulateBackendTraining ds mc pp rand).umapComponents.length = 150 ∧
    (simulateBackendTraining ds mc pp rand).residuals.length = 50 ∧
    (simulateBackendTraining ds mc pp rand).learningCurve.length = 10 ∧
    (simulateBackendTraining ds mc pp rand).layerActivations.length = 20 ∧
    (simulateBackendTraining ds mc pp rand).wordCloud.length = 10 ∧
    (simulateBackendTraining ds mc pp rand).radarData.length = 5 ∧
    (simulateBackendTraining ds mc pp rand).confusionMatrix
      = [[tpOf ds mc rand, fpOf ds mc rand], [fnOf ds mc rand, tnOf ds mc rand]] := by
  have himp : realImpactsOf ds mc = [] := realImpacts_empty_target ds mc h
  have htop : topFeaturesOf ds mc = [] := by
    unfold topFeaturesOf
    rw [himp]
    rfl
  have hshap : shapValuesOf ds mc rand = [] := by
    unfold shapValuesOf
    rw [htop]
    rfl
  refine ⟨by rw [h]; simp [calculateFeatureImpacts], maxCorrelation_empty_target ds mc h,
    accuracyModifier_empty_target ds mc h, hshap, ?_, ?_, ?_, ?_, ?_, ?_, ?_, ?_,
    ?_, ?_, ?_, ?_, ?_, rfl⟩
  · show limeValuesOf ds mc rand = []
    unfold limeValuesOf
    rw [htop]
    rfl
  · show featureImportanceOf ds mc rand = []
    unfold featureImportanceOf
    rw [hshap]
    rfl
  · show (rocCurveOf ds mc rand).length = 21
    rw [rocCurveOf, List.length_map, List.length_range]
  · show (prCurveOf ds mc rand).length = 21
    rw [prCurveOf, List.length_map, List.length_range]
  · show (lossHistoryOf ds mc rand).length = epochsOf mc
    exact lossHistoryGo_length _ _ _ _ _ _ _
  · show (pcaComponentsOf ds mc rand).length = 150
    simp [pcaComponentsOf, generateProjection]
  · show (tsneComponentsOf ds mc rand).length = 150
    simp [tsneComponentsOf, generateProjection]
  · show (umapComponentsOf ds mc rand).length = 150
    simp [umapComponentsOf, generateProjection]
  · show (residualsOf ds mc rand).length = 50
    simp [residualsOf]
  · show (learningCurveOf ds mc rand).length = 10
    simp [learningCurveOf]
  · show (layerActivationsOf ds mc rand).length = 20
    simp [layerActivationsOf]
  · show (wordCloudOf ds mc rand).length = 10
    simp [wordCloudOf, wordsList]
  · show (radarDataOf ds mc rand).length = 5
    rfl

/-- C9 witness: a concrete empty-target run. -/
theorem empty_target_column_witness :
    calculateFeatureImpacts emptyDataset mlConfig.targetColumn = [] ∧
    maxCorrelationOf emptyDataset mlConfig = 0.5 ∧
    accuracyModifierOf emptyDataset mlConfig = 0 ∧
    (simulateBackendTraining emptyDataset mlConfig defaultPrep zeroRand).shapValues = [] ∧
    (simulateBackendTraining emptyDataset mlConfig defaultPrep zeroRand).limeValues = [] ∧
    (simulateBackendTraining emptyDataset mlConfig defaultPrep
      zeroRand).featureImportance = [] ∧
    (simulateBackendTraining emptyDataset mlConfig defaultPrep
      zeroRand).rocCurve.length = 21 ∧
    (simulateBackendTraining emptyDataset mlConfig defaultPrep
      zeroRand).precisionRecallCurve.length = 21 ∧
    (simulateBackendTraining emptyDataset mlConfig defaultPrep
      zeroRand).lossHistory.length = epochsOf mlConfig ∧
    (simulateBackendTraining emptyDataset mlConfig defaultPrep
      zeroRand).pcaComponents.length = 150 ∧
    (simulateBackendTraining emptyDataset mlConfig defaultPrep
      zeroRand).tsneComponents.length = 150 ∧
    (simulateBackendTraining emptyDataset mlConfig defaultPrep
      zeroRand).umapComponents.length = 150 ∧
    (simulateBackendTraining emptyDataset mlConfig defaultPrep
      zeroRand).residuals.length = 50 ∧
    (simulateBackendTraining emptyDataset mlConfig defaultPrep
      zeroRand).learningCurve.length = 10 ∧
    (simulateBackendTraining emptyDataset mlConfig defaultPrep
      zeroRand).layerActivations.length = 20 ∧
    (simulateBackendTraining emptyDataset mlConfig defaultPrep
      zeroRand).wordCloud.length = 10 ∧
    (simulateBackendTraining emptyDataset mlConfig defaultPrep
      zeroRand).radarData.length = 5 ∧
    (simulateBackendTraining emptyDataset mlConfig defaultPrep
      zeroRand).confusionMatrix
      = [[tpOf emptyDataset mlConfig zeroRand, fpOf emptyDataset mlConfig zeroRand],
         [fnOf emptyDataset mlConfig zeroRand, tnOf emptyDataset mlConfig zeroRand]] :=
  empty_target_column emptyDataset mlConfig defaultPrep zeroRand rfl

/-! ## Classification/regression metric split (C8) -/

theorem round4_add_002 (x : ℝ) : round4 (x + 0.02) = round4 x + 0.02 := by
  have h := round4_add_int_div x 200
  have e1 : x + ((200 : ℤ) : ℝ) / 10000 = x + 0.02 := by push_cast; ring
  have e2 : round4 x + ((200 : ℤ) : ℝ) / 10000 = round4 x + 0.02 := by push_cast; ring
  rw [e1, e2] at h
  exact h

theorem isClassification_iff (mc : ModelConfig) :
    isClassificationOf mc = true ↔ mc.modelName ∈ classificationModels := by
  unfold isClassificationOf
  exact List.elem_iff

/-- C8 amended: a model name in the fixed classification list yields
`auc = accuracy + 0.02` (4-decimal rounding is the identity there) and no
rmse/mae; any other name yields no auc and independent draws
`rmse = round2(u·1000) ∈ [0, 1000]` and `mae = round2(v·800) ∈ [0, 800]`
(the right endpoints are attainable through the 2-decimal rounding). -/
theorem classification_metric_split (ds : Dataset) (mc : ModelConfig)
    (pp : PreprocessingConfig) (rand : ℕ → ℝ) (h : ∀ i, 0 ≤ rand i ∧ rand i < 1) :
    (mc.modelName ∈ classificationModels →
      (simulateBackendTraining ds mc pp rand).metrics.auc
          = some ((simulateBackendTraining ds mc pp rand).metrics.accuracy + 0.02) ∧
      (simulateBackendTraining ds mc pp rand).metrics.rmse = none ∧
      (simulateBackendTraining ds mc pp rand).metrics.mae = none) ∧
    (mc.modelName ∉ classificationModels →
      (simulateBackendTraining ds mc pp rand).metrics.auc = none ∧
      (simulateBackendTraining ds mc pp rand).metrics.rmse
          = some (round2 (rand 3 * 1000)) ∧
      (simulateBackendTraining ds mc pp rand).metrics.mae
          = some (round2 (rand 4 * 800)) ∧
      (0 ≤ round2 (rand 3 * 1000) ∧ round2 (rand 3 * 1000) ≤ 1000) ∧
      (0 ≤ round2 (rand 4 * 800) ∧ round2 (rand 4 * 800) ≤ 800)) := by
  constructor
  · intro hmem
    have hcls : isClassificationOf mc = true := (isClassification_iff mc).mpr hmem
    refine ⟨?_, ?_, ?_⟩
    · show (if isClassificationOf mc then some (round4 (accuracyRawOf ds mc rand + 0.02))
        else none) = some ((metricsOf ds mc rand).accuracy + 0.02)
      rw [hcls]
      simp only [if_true]
      rw [round4_add_002]
      rfl
    · show (if isClassificationOf mc then none
        else some (round2 (rand 3 * 1000))) = none
      rw [hcls]
      simp
    · show (if isClassificationOf mc then none
        else some (round2 (rand 4 * 800))) = none
      rw [hcls]
      simp
  · intro hmem
    have hcls : ¬(isClassificationOf mc = true) := fun hc =>
      hmem ((isClassification_iff mc).mp hc)
    have hb3 := h 3
    have hb4 := h 4
    refine ⟨?_, ?_, ?_, ⟨?_, ?_⟩, ⟨?_, ?_⟩⟩
    · show (if isClassificationOf mc then some (round4 (accuracyRawOf ds mc rand + 0.02))
        else none) = none
      rw [if_neg hcls]
    · show (if isClassificationOf mc then none
        else some (round2 (rand 3 * 1000))) = some (round2 (rand 3 * 1000))
      rw [if_neg hcls]
    · show (if isClassificationOf mc then none
        else some (round2 (rand 4 * 800))) = some (round2 (rand 4 * 800))
      rw [if_neg hcls]
    · unfold round2
      have h0 : (0 : ℤ) ≤ round (rand 3 * 1000 * 100) :=
        le_round_of_le _ 0 (by push_cast; nlinarith [hb3.1])
      have h0R : (0 : ℝ) ≤ ((round (rand 3 * 1000 * 100) : ℤ) : ℝ) := by exact_mod_cast h0
      linarith
    · unfold round2
      have hle : round (rand 3 * 1000 * 100) ≤ 100000 :=
        round_le_of_lt _ _ (by push_cast; nlinarith [hb3.2])
      have hleR : ((round (rand 3 * 1000 * 100) : ℤ) : ℝ) ≤ 100000 := by exact_mod_cast hle
      linarith
    · unfold round2
      have h0 : (0 : ℤ) ≤ round (rand 4 * 800 * 100) :=
        le_round_of_le _ 0 (by push_cast; nlinarith [hb4.1])
      have h0R : (0 : ℝ) ≤ ((round (rand 4 * 800 * 100) : ℤ) : ℝ) := by exact_mod_cast h0
      linarith
    · unfold round2
      have hle : round (rand 4 * 800 * 100) ≤ 80000 :=
        round_le_of_lt _ _ (by push_cast; nlinarith [hb4.2])
      have hleR : ((round (rand 4 * 800 * 100) : ℤ) : ℝ) ≤ 80000 := by exact_mod_cast hle
      linarith

/-- C8 amended-theorem witness: the classification branch at a concrete
run. -/
theorem classification_metric_split_witness :
    (simulateBackendTraining emptyDataset mlConfig defaultPrep zeroRand).metrics.auc
        = some ((simulateBackendTraining emptyDataset mlConfig defaultPrep
            zeroRand).metrics.accuracy + 0.02) ∧
    (simulateBackendTraining emptyDataset mlConfig defaultPrep
        zeroRand).metrics.rmse = none ∧
    (simulateBackendTraining emptyDataset mlConfig defaultPrep
        zeroRand).metrics.mae = none :=
  (classification_metric_split emptyDataset mlConfig defaultPrep zeroRand
    (fun _ => by norm_num [zeroRand])).1 (by decide)

theorem round_eq_int (x : ℝ) (m : ℤ) (h1 : (m : ℝ) ≤ x + 1 / 2)
    (h2 : x + 1 / 2 < (m : ℝ) + 1) : round x = m := by
  rw [round_eq]
  exact Int.floor_eq_iff.mpr ⟨h1, by push_cast; linarith⟩

/-- A draw stream whose fourth value (the rmse draw) is close enough to 1
for the 2-decimal rounding to reach 1000 exactly. -/
def bigRand : ℕ → ℝ := fun i => if i = 3 then 0.9999999 else 0

/-- C8 counterexample: for a regression-style run the stored `rmse` can be
exactly `1000`, which is outside the claimed half-open range `[0, 1000)`. -/
theorem regression_rmse_counterexample :
    (simulateBackendTraining emptyDataset regConfig defaultPrep bigRand).metrics.rmse
        = some 1000 ∧ ¬((1000 : ℝ) < 1000) := by
  constructor
  · show (if isClassificationOf regConfig then none
      else some (round2 (bigRand 3 * 1000))) = some 1000
    rw [if_neg (by decide)]
    have hb : bigRand 3 = 0.9999999 := by norm_num [bigRand]
    rw [hb]
    unfold round2
    rw [show (0.9999999 : ℝ) * 1000 * 100 = 99999.99 by norm_num]
    rw [round_eq_int (99999.99 : ℝ) 100000 (by norm_num) (by norm_num)]
    norm_num
  · norm_num

/-! ## The loss-history recurrence counterexample (C7) -/

theorem baseAccuracy_mlConfig : baseAccuracyOf mlConfig = 0.82 := by
  unfold baseAccuracyOf
  rw [if_neg (by decide : ¬(mlConfig.category = ModelCategory.DL))]
  norm_num [mlConfig]

theorem actualAccuracy_concrete :
    actualAccuracyOf emptyDataset mlConfig zeroRand = 0.82 := by
  unfold actualAccuracyOf
  rw [baseAccuracy_mlConfig, accuracyModifier_empty_target emptyDataset mlConfig rfl]
  show min 0.99 (max 0.6 (0.82 + 0 + (0 : ℝ) * 0.05)) = 0.82
  rw [show (0.82 : ℝ) + 0 + 0 * 0.05 = 0.82 by ring]
  rw [max_eq_right (by norm_num), min_eq_right (by norm_num)]

theorem totalCorrect_concrete :
    totalCorrectOf emptyDataset mlConfig zeroRand = 164 := by
  unfold totalCorrectOf
  rw [actualAccuracy_concrete]
  rw [show (200 : ℝ) * 0.82 = ((164 : ℤ) : ℝ) by norm_num]
  exact round_intCast 164

theorem metrics_accuracy_concrete :
    (metricsOf emptyDataset mlConfig zeroRand).accuracy = 0.82 := by
  rw [metrics_accuracy_eq, totalCorrect_concrete]
  norm_num

/-- C7 counterexample: at a concrete run with `metrics.accuracy = 0.82`,
the first stored epoch accuracy is `0.564 = 0.5 + (A − 0.5)·0.2` (the code's
recurrence toward `A`), not `0.568 = 0.5 + (A + 0.02 − 0.5)·0.2` (the
claimed recurrence toward `A + 0.02`). -/
theorem loss_history_counterexample :
    (∃ ent : EpochLog,
      (simulateBackendTraining emptyDataset mlConfig defaultPrep
        zeroRand).lossHistory.get? 0 = some ent ∧ ent.accuracy = 0.564) ∧
    round4 (0.5 + ((simulateBackendTraining emptyDataset mlConfig defaultPrep
        zeroRand).metrics.accuracy + 0.02 - 0.5) * 0.2) = 0.568 ∧
    (0.564 : ℝ) ≠ 0.568 := by
  obtain ⟨ent, hget, h1, _, _, _⟩ := lossHistoryGo_get zeroRand
    ((metricsOf emptyDataset mlConfig zeroRand).accuracy) (epochsOf mlConfig) 0
    (lossBaseIdx mlConfig) 1 0.7 0.5 (by decide)
    (by rw [metrics_accuracy_concrete]; norm_num)
  refine ⟨⟨ent, hget, ?_⟩, ?_, by norm_num⟩
  · rw [h1, metrics_accuracy_concrete]
    rw [show (0.82 : ℝ) - (0.82 - 0.5) * 0.8 ^ (0 + 1) = 0.564 by norm_num]
    exact round4_eq_self_of_int _ 5640 (by push_cast; norm_num)
  · show round4 (0.5 + ((metricsOf emptyDataset mlConfig zeroRand).accuracy
      + 0.02 - 0.5) * 0.2) = 0.568
    rw [metrics_accuracy_concrete]
    rw [show (0.5 : ℝ) + (0.82 + 0.02 - 0.5) * 0.2 = 0.568 by norm_num]
    exact round4_eq_self_of_int _ 5680 (by push_cast; norm_num)

end AcademiML
